import Mathlib

/-!
Verification development for the conversational answer-resolution and
session-progression engine of a food-ordering backend.

The Python sources are shallowly embedded:
- strings that flow through the similarity matcher are `List Char`
  (Python `str.lower` is modelled on ASCII letters, `str.strip` on the
  six ASCII whitespace characters that Python strips by default);
- `difflib.SequenceMatcher.ratio` (no junk heuristic is relevant at the
  sizes involved; `autojunk` only affects sequences of 200+ elements) is
  embedded as the classical recursive longest-matching-block count, and
  the resulting ratio `2*M/T` is represented exactly as a numerator and
  denominator pair of naturals (`Frac`) compared by cross multiplication,
  instead of IEEE floats; `Frac.val` maps a score to the rational it
  denotes;
- the SQLAlchemy store is a record of row lists (`DBState`); queries are
  list filters, `first()` is `List.find?`, `order_by(x).first()` keeps the
  first row with minimal key (stable ordering), inserts append;
- the Gemini call is represented by its observable outcome: `none` for a
  raised transport error (the service catches it and returns `None`),
  `some raw` for a model completion with raw text `raw`; a failure of the
  `GeminiAnalyzer` constructor (missing API key) is a separate boolean,
  because it is caught by the callers, not inside the analyzer;
- fallible Python functions return `Except String _`; `raise ValueError`
  is `.error`.
-/

/-! ## ASCII character helpers (model of Python str.lower / str.strip) -/

/-- Whitespace test of the model of `str.strip()` with no argument: the
six ASCII characters Python strips. -/
def isPySpace (c : Char) : Bool :=
  c == ' ' || c == '\t' || c == '\n' || c == '\r' || c == '\x0b' || c == '\x0c' 

/-- ASCII model of Python `str.lower` on a single character. -/
def pyLower (c : Char) : Char :=
  if 'A' ≤ c ∧ c ≤ 'Z' then Char.ofNat (c.toNat + 32) else c

/-- Model of `str.lower` on a whole string. -/
def lowerL (s : List Char) : List Char := s.map pyLower

/-- Drop Python whitespace from the front. -/
def trimLeftWs (s : List Char) : List Char := s.dropWhile isPySpace

/-- Drop Python whitespace from the back. -/
def trimRightWs (s : List Char) : List Char :=
  (s.reverse.dropWhile isPySpace).reverse

/-- Model of Python `str.strip()`. -/
def trimWs (s : List Char) : List Char := trimRightWs (trimLeftWs s)

/-- Normalisation applied by `calculate_similarity` to both arguments:
`text.lower().strip()`. -/
def normalizeTxt (s : List Char) : List Char := trimWs (lowerL s)

/-- Model of Python `str.lower` on `String`. -/
def lowerStr (s : String) : String := (lowerL s.toList).asString

/-- Model of Python `str.strip` on `String`. -/
def stripStr (s : String) : String := (trimWs s.toList).asString

/-- Does `s` start with `p`? (helper for the substring test). -/
def startsWithL : List Char → List Char → Bool
  | _, [] => true
  | [], _ :: _ => false
  | c :: s, d :: p => c == d && startsWithL s p

/-- Model of the Python substring test `p in s` (contiguous substring). -/
def containsSubL : List Char → List Char → Bool
  | [], p => p.isEmpty
  | c :: t, p => startsWithL (c :: t) p || containsSubL t p

/-! ## Exact similarity scores

The source keeps SequenceMatcher ratios as Python floats. The model keeps
them as exact fractions of naturals and compares by cross multiplication,
which agrees with the real-number comparisons the source intends (the
denominators constructed below are always positive). -/

/-- Exact non-negative fraction: numerator and (positive) denominator. -/
structure Frac where
  num : Nat
  den : Nat
deriving DecidableEq, Repr

/-- Strict order on scores by cross multiplication. -/
def fracLt (x y : Frac) : Bool := x.num * y.den < y.num * x.den

/-- Non-strict order on scores by cross multiplication. -/
def fracLe (x y : Frac) : Bool := x.num * y.den ≤ y.num * x.den

/-- Model of Python `max(x, y)` on two scores (keeps `x` on ties). -/
def fracMax (x y : Frac) : Frac := if fracLt x y then y else x

/-- Rational value denoted by a score. -/
def Frac.val (x : Frac) : ℚ := (x.num : ℚ) / (x.den : ℚ)

/-- Python float literal `0.0`, the initial `best_score` of the matcher. -/
def fracZero : Frac := ⟨0, 1⟩

/-- The similarity threshold `0.6` of the matcher. -/
def fracThreshold : Frac := ⟨3, 5⟩

/-! ## difflib.SequenceMatcher model -/

/-- Length of the common prefix of two character lists. -/
def commonRun : List Char → List Char → Nat
  | c :: a, d :: b => if c = d then commonRun a b + 1 else 0
  | _, _ => 0

/-- Longest matching block of `a` and `b`: the triple `(i, j, k)` such
that `a[i:i+k] = b[j:j+k]`, `k` maximal, ties broken towards the smallest
`i` and then the smallest `j` — the block `find_longest_match` returns
when no element is junk. -/
def findLongestMatch (a b : List Char) : Nat × Nat × Nat :=
  (List.range a.length).foldl
    (fun best i =>
      (List.range b.length).foldl
        (fun best j =>
          let k := commonRun (a.drop i) (b.drop j)
          if k > best.2.2 then (i, j, k) else best)
        best)
    (0, 0, 0)

/-- Total number of matched characters, as summed by
`SequenceMatcher.get_matching_blocks`: take the longest matching block
and recurse on the pieces to its left and to its right.  The recursion
is driven by explicit fuel; `a.length + b.length` steps always suffice,
because each recursive call strictly shrinks the combined length (the
block has `k ≥ 1`, starts at `i < a.length`, `j < b.length`). -/
def matchingSizeAux : Nat → List Char → List Char → Nat
  | 0, _, _ => 0
  | fuel + 1, a, b =>
    let m := findLongestMatch a b
    let i := m.1
    let j := m.2.1
    let k := m.2.2
    if k = 0 then 0
    else
      k + matchingSizeAux fuel (a.take i) (b.take j)
        + matchingSizeAux fuel (a.drop (i + k)) (b.drop (j + k))

/-- Matched-character count of `SequenceMatcher(None, a, b)`. -/
def matchingSize (a b : List Char) : Nat :=
  matchingSizeAux (a.length + b.length) a b

/-- Model of `SequenceMatcher.ratio()`: `2*M / (len(a)+len(b))`, and `1.0`
when both sequences are empty. -/
def ratioFrac (a b : List Char) : Frac :=
  if a.length + b.length = 0 then ⟨1, 1⟩
  else ⟨2 * matchingSize a b, a.length + b.length⟩

/-- Embedding of `helpers/voice_matcher.calculate_similarity`: lower-case
and strip both texts, then take the SequenceMatcher ratio. -/
def calculate_similarity (text1 text2 : List Char) : Frac :=
  ratioFrac (normalizeTxt text1) (normalizeTxt text2)

/-! ## Data model (models/conversation.py rows) -/

/-- Row of `question_masters`. -/
structure QuestionRow where
  question_key : String
  question_text : String
  question_order : Int
  qtype : Option String
  is_active : Bool
deriving DecidableEq, Repr

/-- Row of `answer_masters` (the answer text is kept as characters since
it feeds the similarity matcher). -/
structure AnswerRow where
  answer_key : String
  question_key : String
  answer_text : List Char
  answer_order : Option Int
  is_active : Bool
deriving DecidableEq, Repr

/-- Row of `sessions`. -/
structure SessionRow where
  id : String
  user_id : Option String
  language : String
  input_type : Option String
deriving DecidableEq, Repr

/-- Row of `conversation_entries`. -/
structure EntryRow where
  id : Nat
  session_id : Option String
  user_id : Option Int
  question_key : String
  answer_key : Option String
  custom_input : Option String
  response_text : Option String
  select_type : Option String
deriving DecidableEq, Repr

/-- The relational store: lists of rows in insertion order, plus the next
auto-increment id for `conversation_entries`. -/
structure DBState where
  questions : List QuestionRow
  answers : List AnswerRow
  sessions : List SessionRow
  entries : List EntryRow
  next_id : Nat
deriving DecidableEq, Repr

/-! ## helpers/validators.py -/

/-- Embedding of `validate_question_key`: an active question with this key
exists. -/
def validate_question_key (db : DBState) (question_key : String) : Bool :=
  (db.questions.find? fun q =>
    q.question_key == question_key && q.is_active).isSome

/-- Embedding of `validate_answer_key`: an active answer with this key
exists under the given question. -/
def validate_answer_key (db : DBState) (answer_key question_key : String) : Bool :=
  (db.answers.find? fun a =>
    a.answer_key == answer_key && a.question_key == question_key
      && a.is_active).isSome

/-- An available answer as handed to the AI analyzers: the dict with keys
`answer_key` and `answer_text`. -/
structure AvailAnswer where
  answer_key : String
  answer_text : List Char
deriving DecidableEq, Repr

/-- Embedding of `get_active_answers_for_question`. -/
def get_active_answers_for_question
    (db : DBState) (question_key : String) : List AvailAnswer :=
  (db.answers.filter fun a =>
      a.question_key == question_key && a.is_active).map
    fun a => ⟨a.answer_key, a.answer_text⟩

/-! ## helpers/voice_matcher.py -/

/-- The hard-coded variation table of `get_common_variations`. -/
def variation_map : List (List Char × List (List Char)) :=
  [ ("vegetarian".toList,
      ["veg".toList, "veggie".toList, "vegetarian".toList, "pure veg".toList]),
    ("non-vegetarian".toList,
      ["non veg".toList, "non-veg".toList, "nonveg".toList, "meat".toList]),
    ("vegan".toList,
      ["vegan".toList, "plant based".toList, "no dairy".toList]),
    ("chinese".toList,
      ["chinese".toList, "chinese food".toList, "indo chinese".toList]),
    ("italian".toList, ["italian".toList, "pasta".toList, "pizza".toList]),
    ("mexican".toList, ["mexican".toList, "tex mex".toList, "tacos".toList]),
    ("japanese".toList, ["japanese".toList, "sushi".toList, "ramen".toList]),
    ("hungry".toList,
      ["hungry".toList, "very hungry".toList, "starving".toList]),
    ("just snacking".toList,
      ["snacking".toList, "snack".toList, "light bite".toList]),
    ("super hungry".toList,
      ["super hungry".toList, "very hungry".toList, "famished".toList,
        "starving".toList]) ]

/-- Embedding of `get_common_variations`: collect the variation lists of
every table key that occurs as a substring of the lower-cased answer
text, in table order. -/
def get_common_variations (answer_text : List Char) : List (List Char) :=
  let answer_lower := lowerL answer_text
  variation_map.foldl
    (fun variations kv =>
      if containsSubL answer_lower kv.1 then variations ++ kv.2 else variations)
    []

/-- Score of one candidate answer against the utterance: the similarity
against the canonical answer text, maximised over the common variations
(the loop body of `match_voice_to_answer`). -/
def candidateScore (voice_text : List Char) (answer : AnswerRow) : Frac :=
  (get_common_variations answer.answer_text).foldl
    (fun score variation => fracMax score (calculate_similarity voice_text variation))
    (calculate_similarity voice_text answer.answer_text)

/-- The active answers of a question, in table order (the query of
`match_voice_to_answer`). -/
def activeAnswers (db : DBState) (question_key : String) : List AnswerRow :=
  db.answers.filter fun a => a.question_key == question_key && a.is_active

/-- Loop body of `match_voice_to_answer`: keep the candidate when its
score strictly beats the running best and reaches the threshold
(`if score > best_score and score >= threshold`). -/
def matcherStep (voice_text : List Char) (threshold : Frac)
    (best : Option String × Frac) (answer : AnswerRow) : Option String × Frac :=
  let score := candidateScore voice_text answer
  if fracLt best.2 score && fracLe threshold score
  then (some answer.answer_key, score) else best

/-- Embedding of `match_voice_to_answer`: fold over the active answers
keeping the first strictly-best candidate whose score reaches the
threshold; `none` when no active answers exist or nothing reaches the
threshold. -/
def match_voice_to_answer
    (db : DBState) (voice_text : List Char) (question_key : String)
    (threshold : Frac := fracThreshold) : Option String :=
  let answers := activeAnswers db question_key
  if answers.isEmpty then none
  else
    (answers.foldl (matcherStep voice_text threshold)
      ((none : Option String), fracZero)).1

/-! ## services/gemini_service.py -/

/-- Embedding of `GeminiAnalyzer.analyze_user_response`.  The network
call is represented by its outcome `rawResult`: `none` when
`generate_content` (or reading `response.text`) raised — the except
branch returns Python `None` — and `some raw` when the model produced
the completion `raw`.  The completion is stripped and validated against
the candidate keys and the two sentinels, failing closed to
`SORRY_DONT_UNDERSTAND`. -/
def analyze_user_response
    (available_answers : List AvailAnswer)
    (rawResult : Option (List Char)) : Option String :=
  if available_answers.isEmpty then none
  else
    match rawResult with
    | none => none
    | some raw =>
      let answer := (trimWs raw).asString
      if (available_answers.map (fun a => a.answer_key)).contains answer then
        some answer
      else if answer == "NONE" then some "SORRY_DONT_UNDERSTAND"
      else if answer == "SUGGESTION_REQUEST" then some "SUGGESTION_REQUEST"
      else some "SORRY_DONT_UNDERSTAND"

/-! ## app/schemas/conversation.py -/

/-- Embedding of the Pydantic `ConversationEntryCreate` payload.  The
schema only has the camel-case field `responseText`; there is no
`response_text` field, so `entry_dict.get("response_text")` in the
recorder is always Python `None`. -/
structure EntryCreate where
  session_id : Option String
  user_id : Option Int
  question_key : String
  answer_key : Option String
  custom_input : Option String
  responseText : Option String
  select_type : String
deriving DecidableEq, Repr

/-- Embedding of the Pydantic `ConversationEntryResponse` (`created_at`
carries no information in the model and is omitted). -/
structure ConvResponse where
  id : Nat
  session_id : Option String
  user_id : Option Int
  question_key : String
  answer_key : Option String
  custom_input : Option String
  responseText : Option String
deriving DecidableEq, Repr

/-- Python truthiness of an `Optional[str]`: `None` and the empty string
are falsy. -/
def truthyOptStr : Option String → Bool
  | none => false
  | some s => !(s == "")

/-! ## services/conversation_service.py — the Recorder -/

/-- Answer-key validation step of
`ConversationService.create_conversation_entry`: the source guard is
`if entry_data.answer_key:` — only a truthy (non-`None`, non-empty)
answer key is validated, and an invalid one is silently downgraded to
`None`; a `None` or empty-string key passes through untouched. -/
def recorder_answer_key (db : DBState) (entry_data : EntryCreate) : Option String :=
  if truthyOptStr entry_data.answer_key then
    match entry_data.answer_key with
    | some k =>
      if validate_answer_key db k entry_data.question_key then some k
      else none
    | none => none
  else entry_data.answer_key

/-- The inserted `conversation_entries` row (step 3 and the
`ConversationEntry(...)` constructor call). -/
def recorder_row (db : DBState) (entry_data : EntryCreate) : EntryRow :=
  { id := db.next_id
    session_id := entry_data.session_id
    user_id := entry_data.user_id
    question_key := entry_data.question_key
    answer_key := recorder_answer_key db entry_data
    custom_input := entry_data.custom_input
    response_text :=
      if truthyOptStr entry_data.responseText then entry_data.responseText
      else none
    select_type := some entry_data.select_type }

/-- The `from_orm` response for the inserted row (step 4). -/
def recorder_resp (db : DBState) (entry_data : EntryCreate) : ConvResponse :=
  { id := db.next_id
    session_id := entry_data.session_id
    user_id := entry_data.user_id
    question_key := entry_data.question_key
    answer_key := recorder_answer_key db entry_data
    custom_input := entry_data.custom_input
    responseText := none }

/-- Embedding of `ConversationService.create_conversation_entry`.
Control flow of the source:
1. unknown or inactive question key raises `ValueError` (modelled as
   `.error`);
2. the supplied answer key passes `recorder_answer_key`;
3. `response_text` is only populated from `responseText` when the latter
   is truthy (`entry_dict.get("response_text")` is always `None`, see
   `EntryCreate`);
4. the row is inserted (the insert itself is modelled as always
   succeeding) and the response is built by `from_orm`; the schema field
   `responseText` has no matching ORM attribute (the column is
   `response_text`), so the returned `responseText` is `None`. -/
def create_conversation_entry
    (db : DBState) (entry_data : EntryCreate) :
    Except String (DBState × ConvResponse) :=
  if !(validate_question_key db entry_data.question_key) then
    .error ("Invalid question key: " ++ entry_data.question_key)
  else
    .ok ({ db with
            entries := db.entries ++ [recorder_row db entry_data]
            next_id := db.next_id + 1 },
      recorder_resp db entry_data)

/-! ## services/food_suggestion_service.py -/

/-- Row shape produced by the raw SQL over `order_items` / `cart_items`:
`item_name`, `item_description`, `price`, `category`, `dietary_type`
(`price` is carried already stringified; a missing or falsy value is
`none`). -/
structure SuggRow where
  item_name : Option String
  item_description : Option String
  price : Option String
  category : Option String
  dietary_type : Option String
deriving DecidableEq, Repr

/-- A formatted suggestion dict. -/
structure SuggestionItem where
  item_name : String
  description : String
  price : String
  category : String
  source : String
deriving DecidableEq, Repr

/-- Outcomes of the three raw SQL queries the service issues.  Each is
either `.error` (the query raised) or `.ok rows` with the rows in the
order the database returned them (the SQL orders by `RANDOM()`, so the
order is arbitrary); the `general` result belongs to the `UNION ALL`
query. -/
structure SuggSources where
  orders : Except Unit (List SuggRow)
  cart : Except Unit (List SuggRow)
  general : Except Unit (List SuggRow)

/-- Python `x or default` on an optional string (`None` and `""` both
fall back). -/
def orDefault (x : Option String) (d : String) : String :=
  match x with
  | some s => if s == "" then d else s
  | none => d

/-- The dict built for one fetched row. -/
def rowToItem (source : String) (r : SuggRow) : SuggestionItem :=
  { item_name := orDefault r.item_name "Unknown Item"
    description := orDefault r.item_description "Delicious food item"
    price :=
      match r.price with
      | some p => if p == "" then "Price on request" else "$" ++ p
      | none => "Price on request"
    category := orDefault r.category "Food"
    source := source }

/-- The WHERE clause of the three queries:
`LOWER(dietary_type) = LOWER(diet)` and `item_name IS NOT NULL`. -/
def suggRowSelected (diet : String) (r : SuggRow) : Bool :=
  (match r.dietary_type with
   | some d => lowerStr d == lowerStr diet
   | none => false) && r.item_name.isSome

/-- Shared shape of `_get_suggestions_from_orders`,
`_get_suggestions_from_cart` and `_get_general_suggestions`: a failing
query is caught and yields `[]`; otherwise the selected rows, limited,
become dicts. -/
def suggestionsFromSource (result : Except Unit (List SuggRow))
    (source diet : String) (lim : Nat) : List SuggestionItem :=
  match result with
  | .error _ => []
  | .ok rows => ((rows.filter (suggRowSelected diet)).take lim).map (rowToItem source)

/-- Embedding of `_get_suggestions_from_orders`. -/
def get_suggestions_from_orders
    (srcs : SuggSources) (diet : String) (lim : Nat) : List SuggestionItem :=
  suggestionsFromSource srcs.orders "Popular Orders" diet lim

/-- Embedding of `_get_suggestions_from_cart`. -/
def get_suggestions_from_cart
    (srcs : SuggSources) (diet : String) (lim : Nat) : List SuggestionItem :=
  suggestionsFromSource srcs.cart "Cart Items" diet lim

/-- Embedding of `_get_general_suggestions` (the `UNION ALL` query). -/
def get_general_suggestions
    (srcs : SuggSources) (diet : String) (lim : Nat) : List SuggestionItem :=
  suggestionsFromSource srcs.general "General" diet lim

/-- Embedding of `_get_fallback_suggestions`: the static per-preference
lists (unknown preferences fall back to the vegetarian list). -/
def get_fallback_suggestions (dietary_preference : String) : List SuggestionItem :=
  let veg : List SuggestionItem :=
    [ ⟨"Vegetable Pizza", "Fresh vegetables on crispy crust", "$12.99",
        "Pizza", "Fallback"⟩,
      ⟨"Caesar Salad", "Fresh lettuce with vegetarian dressing", "$8.99",
        "Salad", "Fallback"⟩,
      ⟨"Pasta Primavera", "Mixed vegetables with pasta", "$14.99",
        "Pasta", "Fallback"⟩ ]
  if lowerStr dietary_preference == "veg" then veg
  else if lowerStr dietary_preference == "non-veg" then
    [ ⟨"Chicken Burger", "Juicy chicken patty with fresh vegetables",
        "$11.99", "Burger", "Fallback"⟩,
      ⟨"Beef Steak", "Tender beef steak cooked to perfection", "$24.99",
        "Main Course", "Fallback"⟩,
      ⟨"Fish & Chips", "Crispy fish with golden fries", "$16.99",
        "Seafood", "Fallback"⟩ ]
  else if lowerStr dietary_preference == "vegan" then
    [ ⟨"Vegan Buddha Bowl", "Quinoa, vegetables, and tahini dressing",
        "$13.99", "Bowl", "Fallback"⟩,
      ⟨"Vegan Tacos", "Plant-based protein with fresh vegetables",
        "$10.99", "Mexican", "Fallback"⟩,
      ⟨"Vegan Smoothie", "Mixed fruits and plant-based milk", "$6.99",
        "Beverage", "Fallback"⟩ ]
  else veg

/-- The `diet_mapping` lookup of `get_suggestions_by_dietary_preference`:
`dict.get(dietary_preference.lower(), "vegetarian")`. -/
def diet_value_of (dietary_preference : String) : String :=
  if lowerStr dietary_preference == "veg" then "vegetarian"
  else if lowerStr dietary_preference == "non-veg" then "non-vegetarian"
  else if lowerStr dietary_preference == "vegan" then "vegan"
  else "vegetarian"

/-- Embedding of `get_suggestions_by_dietary_preference`.  The dietary
preference is mapped to the stored `dietary_type` value, then the three
sources are drained in priority order up to `limit`.  Every statement in
the outer `try` block is total here because each per-source helper
catches its own exceptions and returns `[]`; the `except` branch that
would return `_get_fallback_suggestions` is therefore not reachable in
the model (nor in the source via query failures). -/
def get_suggestions_by_dietary_preference
    (srcs : SuggSources) (dietary_preference : String) (limit : Nat) :
    List SuggestionItem :=
  let diet_value := diet_value_of dietary_preference
  let s1 := get_suggestions_from_orders srcs diet_value limit
  let s2 :=
    if s1.length < limit then
      s1 ++ get_suggestions_from_cart srcs diet_value (limit - s1.length)
    else s1
  let s3 :=
    if s2.length < limit then
      s2 ++ get_general_suggestions srcs diet_value (limit - s2.length)
    else s2
  s3.take limit

/-- One numbered item block of the formatted response (loop body of both
formatters, with `enumerate(suggestions, 1)` indices). -/
def suggestionLine (p : Nat × SuggestionItem) : String :=
  toString p.1 ++ ". **" ++ p.2.item_name ++ "**\n   " ++ p.2.description
    ++ "\n   Price: " ++ p.2.price ++ "\n   Category: " ++ p.2.category
    ++ "\n\n"

/-- The per-language message triple of
`format_suggestions_response_with_language`. -/
structure LangMsgs where
  intro : String
  fallback : String
  follow_up : String
deriving DecidableEq, Repr

/-- The `language_messages` table (with the dietary preference already
interpolated, as in the f-strings of the source). -/
def languageMessages (dp lang : String) : LangMsgs :=
  let en : LangMsgs :=
    { intro := "Here are some great " ++ dp ++ " food suggestions for you:"
      fallback := "Sorry, I couldn\x27t find any " ++ dp
        ++ " food suggestions at the moment. Please try again later."
      follow_up := "Would you like to know more about any of these items or need different suggestions?" }
  if lang == "en" then en
  else if lang == "es" then
    { intro := "Aquí tienes algunas excelentes sugerencias de comida " ++ dp
        ++ " para ti:"
      fallback := "Lo siento, no pude encontrar sugerencias de comida " ++ dp
        ++ " en este momento. Por favor, inténtalo de nuevo más tarde."
      follow_up := "¿Te gustaría saber más sobre alguno de estos artículos o necesitas sugerencias diferentes?" }
  else if lang == "fr" then
    { intro := "Voici quelques excellentes suggestions de nourriture " ++ dp
        ++ " pour vous:"
      fallback := "Désolé, je n\x27ai pas pu trouver de suggestions de nourriture "
        ++ dp ++ " pour le moment. Veuillez réessayer plus tard."
      follow_up := "Aimeriez-vous en savoir plus sur l\x27un de ces articles ou avez-vous besoin de suggestions différentes?" }
  else if lang == "hi" then
    { intro := "यहाँ आपके लिए कुछ बेहतरीन " ++ dp ++ " भोजन सुझाव हैं:"
      fallback := "क्षमा करें, मैं इस समय कोई " ++ dp
        ++ " भोजन सुझाव नहीं खोज सका। कृपया बाद में पुनः प्रयास करें।"
      follow_up := "क्या आप इनमें से किसी आइटम के बारे में अधिक जानना चाहेंगे या आपको अलग सुझाव चाहिए?" }
  else en

/-- Embedding of `format_suggestions_response` (the English-only
formatter used by the select-mode suggestion branch). -/
def format_suggestions_response
    (suggestions : List SuggestionItem) (dietary_preference : String) : String :=
  let msgs := languageMessages dietary_preference "en"
  if suggestions.isEmpty then msgs.fallback
  else
    ((List.enumFrom 1 suggestions).foldl
        (fun response p => response ++ suggestionLine p)
        (msgs.intro ++ "\n\n"))
      ++ msgs.follow_up

/-- Embedding of `format_suggestions_response_with_language`: same
shape, with the message triple looked up by language and the English
triple as the default for unknown languages. -/
def format_suggestions_response_with_language
    (suggestions : List SuggestionItem) (dietary_preference language : String) :
    String :=
  let msgs := languageMessages dietary_preference language
  if suggestions.isEmpty then msgs.fallback
  else
    ((List.enumFrom 1 suggestions).foldl
        (fun response p => response ++ suggestionLine p)
        (msgs.intro ++ "\n\n"))
      ++ msgs.follow_up

/-! ## services/conversation_service.py — the Coordinator -/

/-- The fixed apology of `_handle_sorry_response`. -/
def sorryMessage : String :=
  "Sorry, I don\x27t understand your request. Could you please rephrase or select from the available options?"

/-- Embedding of `_handle_sorry_response`: builds the apology response
with the placeholder id 0; no row is inserted. -/
def handle_sorry_response (entry_data : EntryCreate) : ConvResponse :=
  { id := 0
    session_id := entry_data.session_id
    user_id := entry_data.user_id
    question_key := entry_data.question_key
    answer_key := some "SORRY_DONT_UNDERSTAND"
    custom_input := entry_data.custom_input
    responseText := some sorryMessage }

/-- Embedding of `_extract_dietary_preference` on an actual string. -/
def extract_dietary_preference (user_text : String) : String :=
  let lower := (lowerL user_text.toList)
  if containsSubL lower "vegan".toList then "vegan"
  else if containsSubL lower "non-veg".toList
      || containsSubL lower "non veg".toList
      || containsSubL lower "nonvegetarian".toList then "non-veg"
  else if containsSubL lower "veg".toList
      || containsSubL lower "vegetarian".toList then "veg"
  else "veg"

/-- The suggestion-branch helper receives `response_text`, which is
`Optional[str]`; on `None` the attribute access `user_text.lower()`
raises, which the surrounding handler of `_handle_suggestion_request`
catches.  The raise is modelled as `.error`. -/
def extract_dietary_preference_opt (user_text : Option String) :
    Except Unit String :=
  match user_text with
  | none => .error ()
  | some s => .ok (extract_dietary_preference s)

/-- Embedding of `_handle_suggestion_request` (select mode): extract the
dietary preference, fetch up to 5 suggestions, format them with the
English formatter, and build a response with the placeholder id 0 and
answer key `SUGGESTION_REQUEST`; no row is inserted.  Any exception
(only the `None.lower()` one is reachable in the model) degrades to the
apology response. -/
def handle_suggestion_request
    (srcs : SuggSources) (entry_data : EntryCreate)
    (user_text : Option String) : ConvResponse :=
  match extract_dietary_preference_opt user_text with
  | .error _ => handle_sorry_response entry_data
  | .ok dietary_preference =>
    let suggestions := get_suggestions_by_dietary_preference srcs dietary_preference 5
    let suggestion_response := format_suggestions_response suggestions dietary_preference
    { id := 0
      session_id := entry_data.session_id
      user_id := entry_data.user_id
      question_key := entry_data.question_key
      answer_key := some "SUGGESTION_REQUEST"
      custom_input := entry_data.custom_input
      responseText := some suggestion_response }

/-- Embedding of `get_user_language`: the stored session language when
the session exists and its language is truthy, else `"en"`. -/
def get_user_language (db : DBState) (session_id : Option String) : String :=
  match session_id with
  | none => "en"
  | some sid =>
    match db.sessions.find? (fun s => s.id == sid) with
    | some s => if s.language == "" then "en" else s.language
    | none => "en"

/-- Embedding of `get_food_suggestions` (voice-mode suggestion path):
extract the preference, fetch up to 5 suggestions and format them with
the language-aware formatter.  Every step is total in the model, so the
outer `except` branch (a fixed apology string) is not reachable. -/
def get_food_suggestions
    (srcs : SuggSources) (user_text : String) (user_language : String) : String :=
  let dietary_preference := extract_dietary_preference user_text
  let suggestions := get_suggestions_by_dietary_preference srcs dietary_preference 5
  format_suggestions_response_with_language suggestions dietary_preference user_language

/-- Resolution step of `process_select_answer`: the final value of the
`answer_key` variable after the optional Gemini classification.
`geminiInitFails` models a raised `GeminiAnalyzer()` constructor (caught
by the `except` branch, which keeps the original key); `gemRaw` is the
outcome of the network call as in `analyze_user_response`.  Only a
truthy `response_text` triggers classification. -/
def select_resolved_key
    (db : DBState) (geminiInitFails : Bool) (gemRaw : Option (List Char))
    (question_key : String) (answer_key : Option String)
    (response_text : Option String) : Option String :=
  if truthyOptStr response_text then
    if geminiInitFails then answer_key
    else
      let available_answers := get_active_answers_for_question db question_key
      if available_answers.isEmpty then answer_key
      else
        match analyze_user_response available_answers gemRaw with
        | some "SORRY_DONT_UNDERSTAND" => some "SORRY_DONT_UNDERSTAND"
        | some "SUGGESTION_REQUEST" => some "SUGGESTION_REQUEST"
        | some k => if k == "" then answer_key else some k
        | none => answer_key
  else answer_key

/-- Embedding of `ConversationService.process_select_answer`. -/
def process_select_answer
    (db : DBState) (srcs : SuggSources)
    (geminiInitFails : Bool) (gemRaw : Option (List Char))
    (session_id : Option String) (user_id : Option Int)
    (question_key : String) (answer_key : Option String)
    (response_text : Option String) :
    Except String (DBState × ConvResponse) :=
  let resolved := select_resolved_key db geminiInitFails gemRaw question_key
    answer_key response_text
  let entry_data : EntryCreate :=
    { session_id := session_id
      user_id := user_id
      question_key := question_key
      answer_key := resolved
      custom_input := none
      responseText := response_text
      select_type := "select" }
  if resolved == some "SORRY_DONT_UNDERSTAND" then
    .ok (db, handle_sorry_response entry_data)
  else if resolved == some "SUGGESTION_REQUEST" then
    .ok (db, handle_suggestion_request srcs entry_data response_text)
  else
    create_conversation_entry db entry_data

/-- The dict returned by `process_voice_answer`. -/
structure VoiceResult where
  conversation_entry : ConvResponse
  matched : Bool
  matched_answer_key : Option String
  voice_text : String
  user_language : String
deriving DecidableEq, Repr

/-- Classification step of `process_voice_answer`: the final value of
`matched_answer_key` (`None` when the constructor raised, when the
question has no active answers, or on a transport failure). -/
def voice_matched_key
    (db : DBState) (geminiInitFails : Bool) (gemRaw : Option (List Char))
    (question_key : String) : Option String :=
  if geminiInitFails then none
  else
    let available_answers := get_active_answers_for_question db question_key
    if available_answers.isEmpty then none
    else analyze_user_response available_answers gemRaw

/-- Embedding of `ConversationService.process_voice_answer`. -/
def process_voice_answer
    (db : DBState) (srcs : SuggSources)
    (geminiInitFails : Bool) (gemRaw : Option (List Char))
    (session_id : Option String) (user_id : Option Int)
    (question_key voice_text response_text : String) :
    Except String (DBState × VoiceResult) :=
  let matched := voice_matched_key db geminiInitFails gemRaw question_key
  let entry_data : EntryCreate :=
    { session_id := session_id
      user_id := user_id
      question_key := question_key
      answer_key := matched
      custom_input := some voice_text
      responseText := some response_text
      select_type := "voice" }
  let user_language := get_user_language db session_id
  let mk := fun (db' : DBState) (ce : ConvResponse) =>
    (db', { conversation_entry := ce
            matched := matched.isSome
            matched_answer_key := matched
            voice_text := voice_text
            user_language := user_language : VoiceResult })
  if matched == some "SORRY_DONT_UNDERSTAND" then
    .ok (mk db (handle_sorry_response entry_data))
  else if matched == some "SUGGESTION_REQUEST" then
    let suggestion_response := get_food_suggestions srcs voice_text user_language
    match create_conversation_entry db
        { entry_data with responseText := some suggestion_response } with
    | .error e => .error e
    | .ok (db', ce) => .ok (mk db' ce)
  else
    match create_conversation_entry db entry_data with
    | .error e => .error e
    | .ok (db', ce) => .ok (mk db' ce)

/-! ## services/conversation_service.py — the Progression Engine -/

/-- Step of the minimal-order scan: keep the earlier row on ties. -/
def minStep (best : Option QuestionRow) (q : QuestionRow) : Option QuestionRow :=
  match best with
  | none => some q
  | some b => if q.question_order < b.question_order then some q else best

/-- First row with the minimal `question_order` (model of
`order_by(question_order).first()`; stable for ties, like the SQL sort). -/
def minByOrder (l : List QuestionRow) : Option QuestionRow :=
  l.foldl minStep none

/-- Embedding of `ConversationService.get_next_question`.  Note that the
lookup of the current question has no `is_active` filter, and that an
unknown `current_question_key` silently yields `none` (there is no
`raise` in the source function). -/
def get_next_question
    (db : DBState) (current_question_key : Option String) : Option QuestionRow :=
  match current_question_key with
  | some key =>
    match db.questions.find? (fun q => q.question_key == key) with
    | some current =>
      minByOrder (db.questions.filter fun q =>
        decide (q.question_order > current.question_order) && q.is_active)
    | none => none
  | none =>
    minByOrder (db.questions.filter fun q => q.is_active)

/-! ## Statement vocabulary

Definitions below are not translations of source functions; they only
name quantities the theorems talk about (the best matcher score, a
source that yields no selectable rows), and concrete fixtures used by
witnesses and counterexamples. -/

/-- The globally best candidate score of the matcher for an utterance
and a question. -/
def bestMatcherScore
    (db : DBState) (voice_text : List Char) (question_key : String) : Frac :=
  ((activeAnswers db question_key).map (candidateScore voice_text)).foldl
    fracMax fracZero

/-- A suggestion-source outcome that contributes no rows: either the
query raised, or it returned rows none of which pass the WHERE clause. -/
def sourceYieldsNothing (result : Except Unit (List SuggRow)) (diet : String) : Prop :=
  ∀ rows, result = .ok rows → rows.filter (suggRowSelected diet) = []

/-- Fixture: the first wizard question. -/
def qDietary : QuestionRow :=
  ⟨"dietary_preference", "What is your dietary preference?", 1, some "choice", true⟩

/-- Fixture: the second wizard question. -/
def qCuisine : QuestionRow :=
  ⟨"cuisine_type", "What cuisine do you prefer?", 2, some "choice", true⟩

/-- Fixture: the third wizard question. -/
def qHunger : QuestionRow :=
  ⟨"hunger_level", "How hungry are you?", 3, some "choice", true⟩

/-- Fixture: an active vegetarian answer of the first question. -/
def aVeg : AnswerRow :=
  ⟨"veg_key", "dietary_preference", "vegetarian".toList, some 1, true⟩

/-- Fixture: an active non-vegetarian answer of the first question. -/
def aNonVeg : AnswerRow :=
  ⟨"nonveg_key", "dietary_preference", "non-vegetarian".toList, some 2, true⟩

/-- Fixture database: three active ordered questions, two active answers
under the first, one session, no conversation entries yet. -/
def dbFix : DBState :=
  { questions := [qDietary, qCuisine, qHunger]
    answers := [aVeg, aNonVeg]
    sessions := [⟨"s1", none, "en", some "text"⟩]
    entries := []
    next_id := 1 }

/-- Fixture: all three suggestion queries succeed with no rows. -/
def srcsEmpty : SuggSources := ⟨.ok [], .ok [], .ok []⟩

/-- Fixture: all three suggestion queries raise. -/
def srcsAllFail : SuggSources := ⟨.error (), .error (), .error ()⟩

/-- Fixture: the available answers handed to the classifier for the
first question. -/
def availFix : List AvailAnswer :=
  [⟨"veg_key", "vegetarian".toList⟩, ⟨"nonveg_key", "non-vegetarian".toList⟩]

/-- Fixture: a Recorder payload carrying a stale answer key under a
valid question. -/
def eStale : EntryCreate :=
  { session_id := none, user_id := none, question_key := "dietary_preference",
    answer_key := some "stale_key", custom_input := none, responseText := none,
    select_type := "select" }

/-- Fixture: the row the Recorder persists for `eStale` (stale key
downgraded to null). -/
def rowStale : EntryRow :=
  { id := 1, session_id := none, user_id := none,
    question_key := "dietary_preference", answer_key := none,
    custom_input := none, response_text := none,
    select_type := some "select" }

/-- Fixture: the database after recording `eStale` on `dbFix`. -/
def dbAfterStale : DBState :=
  { questions := dbFix.questions, answers := dbFix.answers,
    sessions := dbFix.sessions, entries := [rowStale], next_id := 2 }

/-- Fixture: the response the Recorder returns for `eStale`. -/
def respStale : ConvResponse :=
  { id := 1, session_id := none, user_id := none,
    question_key := "dietary_preference", answer_key := none,
    custom_input := none, responseText := none }

/-! ## Generic helper lemmas -/

/-- Fold invariant: a property preserved by every step holds of the
result. -/
theorem foldl_induction {α β : Type _} (f : β → α → β) (P : β → Prop) :
    ∀ (l : List α) (init : β), P init →
      (∀ acc x, x ∈ l → P acc → P (f acc x)) → P (l.foldl f init) := by
  intro l
  induction l with
  | nil => intro init h _; exact h
  | cons a t ih =>
    intro init h hstep
    exact ih (f init a) (hstep init a (by simp) h)
      (fun acc x hx hacc => hstep acc x (by simp [hx]) hacc)

/-- Dropping while a predicate holds ignores a prefix on which it holds
everywhere. -/
theorem dropWhile_append_of_forall {p : Char → Bool} :
    ∀ (w s : List Char), (∀ c ∈ w, p c = true) →
      (w ++ s).dropWhile p = s.dropWhile p := by
  intro w
  induction w with
  | nil => simp
  | cons c t ih =>
    intro s h
    have hc : p c = true := h c (by simp)
    simp only [List.cons_append, List.dropWhile_cons, hc, if_true]
    exact ih s (fun d hd => h d (by simp [hd]))

/-- Dropping while a predicate holds does not reach a suffix when the
prefix already survives. -/
theorem dropWhile_append_of_surv {p : Char → Bool} :
    ∀ (s t : List Char), s.dropWhile p ≠ [] →
      (s ++ t).dropWhile p = s.dropWhile p ++ t := by
  intro s
  induction s with
  | nil => intro t h; exact absurd rfl h
  | cons c u ih =>
    intro t h
    cases hc : p c with
    | true =>
      simp only [List.dropWhile_cons, hc, if_true] at h
      simp only [List.cons_append, List.dropWhile_cons, hc, if_true]
      exact ih t h
    | false =>
      simp only [List.cons_append, List.dropWhile_cons, hc, if_false,
        Bool.false_eq_true]

/-- When dropWhile consumes everything, the predicate held everywhere. -/
theorem forall_of_dropWhile_eq_nil {p : Char → Bool} :
    ∀ (s : List Char), s.dropWhile p = [] → ∀ c ∈ s, p c = true := by
  intro s
  induction s with
  | nil => intro _ c hc; cases hc
  | cons a u ih =>
    intro h c hc
    cases ha : p a with
    | false => simp only [List.dropWhile_cons, ha] at h; cases h
    | true =>
      simp only [List.dropWhile_cons, ha, if_true] at h
      rcases List.mem_cons.mp hc with rfl | hu
      · exact ha
      · exact ih h c hu

/-- Model of str.lower fixes whitespace characters. -/
theorem pyLower_of_space {c : Char} (h : isPySpace c = true) : pyLower c = c := by
  simp only [isPySpace, Bool.or_eq_true, beq_iff_eq] at h
  rcases h with ((((rfl | rfl) | rfl) | rfl) | rfl) | rfl <;> decide

/-- Stripping removes an all-whitespace prefix and suffix. -/
theorem trimWs_sandwich (w1 s w2 : List Char)
    (h1 : ∀ c ∈ w1, isPySpace c = true) (h2 : ∀ c ∈ w2, isPySpace c = true) :
    trimWs (w1 ++ s ++ w2) = trimWs s := by
  unfold trimWs trimLeftWs trimRightWs
  rw [List.append_assoc, dropWhile_append_of_forall w1 (s ++ w2) h1]
  by_cases hnil : s.dropWhile isPySpace = []
  · have hall : ∀ c ∈ s, isPySpace c = true := forall_of_dropWhile_eq_nil s hnil
    rw [dropWhile_append_of_forall s w2 hall, hnil]
    have hw2 : w2.dropWhile isPySpace = [] := by
      cases hw : w2.dropWhile isPySpace with
      | nil => rfl
      | cons d r =>
        have hd : d ∈ w2 := by
          have hsub : w2.dropWhile isPySpace ⊆ w2 := List.dropWhile_subset _
          exact hsub (hw ▸ List.mem_cons_self d r)
        have : isPySpace d = false := by
          have := List.head?_dropWhile_not isPySpace w2
          rw [hw] at this
          simpa using this
        rw [h2 d hd] at this
        cases this
    rw [hw2]
  · rw [dropWhile_append_of_surv s w2 hnil, List.reverse_append,
      dropWhile_append_of_forall w2.reverse (s.dropWhile isPySpace).reverse
        (fun c hc => h2 c (List.mem_reverse.mp hc))]

/-- Normalisation is invariant under letter-case changes and added
surrounding whitespace. -/
theorem normalizeTxt_invariant (vt u pre post : List Char)
    (hpre : ∀ c ∈ pre, isPySpace c = true)
    (hpost : ∀ c ∈ post, isPySpace c = true)
    (hcase : lowerL u = lowerL vt) :
    normalizeTxt (pre ++ u ++ post) = normalizeTxt vt := by
  unfold normalizeTxt lowerL
  unfold lowerL at hcase
  rw [List.map_append, List.map_append]
  have hp : ∀ c ∈ pre.map pyLower, isPySpace c = true := by
    intro c hc
    obtain ⟨d, hd, rfl⟩ := List.mem_map.mp hc
    rw [pyLower_of_space (hpre d hd)]
    exact hpre d hd
  have hq : ∀ c ∈ post.map pyLower, isPySpace c = true := by
    intro c hc
    obtain ⟨d, hd, rfl⟩ := List.mem_map.mp hc
    rw [pyLower_of_space (hpost d hd)]
    exact hpost d hd
  rw [trimWs_sandwich _ _ _ hp hq, hcase]

/-- Cross multiplication decides the strict order on values. -/
theorem fracLt_iff {x y : Frac} (hx : 0 < x.den) (hy : 0 < y.den) :
    fracLt x y = true ↔ x.val < y.val := by
  unfold fracLt Frac.val
  rw [div_lt_div_iff₀ (by exact_mod_cast hx) (by exact_mod_cast hy)]
  simp only [decide_eq_true_eq]
  constructor <;> intro h <;> exact_mod_cast h

/-- Cross multiplication decides the non-strict order on values. -/
theorem fracLe_iff {x y : Frac} (hx : 0 < x.den) (hy : 0 < y.den) :
    fracLe x y = true ↔ x.val ≤ y.val := by
  unfold fracLe Frac.val
  rw [div_le_div_iff₀ (by exact_mod_cast hx) (by exact_mod_cast hy)]
  simp only [decide_eq_true_eq]
  constructor <;> intro h <;> exact_mod_cast h

/-- A ratio always has a positive denominator. -/
theorem ratioFrac_den_pos (a b : List Char) : 0 < (ratioFrac a b).den := by
  unfold ratioFrac
  split
  · exact Nat.one_pos
  · exact Nat.pos_of_ne_zero (by assumption)

/-- A similarity score has a positive denominator. -/
theorem calculate_similarity_den_pos (t1 t2 : List Char) :
    0 < (calculate_similarity t1 t2).den := ratioFrac_den_pos _ _

/-- The Python two-argument max preserves positive denominators. -/
theorem fracMax_den_pos {x y : Frac} (hx : 0 < x.den) (hy : 0 < y.den) :
    0 < (fracMax x y).den := by
  unfold fracMax; split <;> assumption

/-- The Python two-argument max computes the value-level max. -/
theorem fracMax_val {x y : Frac} (hx : 0 < x.den) (hy : 0 < y.den) :
    (fracMax x y).val = max x.val y.val := by
  unfold fracMax
  by_cases h : fracLt x y = true
  · rw [if_pos h, max_eq_right (le_of_lt ((fracLt_iff hx hy).mp h))]
  · have : ¬ x.val < y.val := fun hv => h ((fracLt_iff hx hy).mpr hv)
    rw [if_neg h, max_eq_left (le_of_not_lt this)]

/-- A candidate score has a positive denominator. -/
theorem candidateScore_den_pos (vt : List Char) (a : AnswerRow) :
    0 < (candidateScore vt a).den := by
  unfold candidateScore
  exact foldl_induction _ (fun (x : Frac) => 0 < x.den) _ _
    (calculate_similarity_den_pos _ _)
    (fun acc x _ hacc => fracMax_den_pos hacc (calculate_similarity_den_pos _ _))

/-- Specification of a fracMax fold: the result dominates the seed and
every element, has a positive denominator, and is the seed or one of
the elements. -/
theorem foldl_fracMax_spec :
    ∀ (l : List Frac) (z : Frac), 0 < z.den → (∀ x ∈ l, 0 < x.den) →
      0 < (l.foldl fracMax z).den ∧ z.val ≤ (l.foldl fracMax z).val ∧
      (∀ x ∈ l, x.val ≤ (l.foldl fracMax z).val) ∧
      (l.foldl fracMax z = z ∨ l.foldl fracMax z ∈ l) := by
  intro l
  induction l with
  | nil =>
    intro z hz _
    refine ⟨hz, le_refl _, ?_, Or.inl rfl⟩
    intro x hx
    exact absurd hx (List.not_mem_nil x)
  | cons a t ih =>
    intro z hz hl
    have ha : 0 < a.den := hl a (by simp)
    have hz' : 0 < (fracMax z a).den := fracMax_den_pos hz ha
    obtain ⟨hd, hle, hall, hprov⟩ :=
      ih (fracMax z a) hz' (fun x hx => hl x (by simp [hx]))
    have hmz : z.val ≤ (fracMax z a).val := by
      rw [fracMax_val hz ha]; exact le_max_left _ _
    have hma : a.val ≤ (fracMax z a).val := by
      rw [fracMax_val hz ha]; exact le_max_right _ _
    simp only [List.foldl_cons]
    refine ⟨hd, le_trans hmz hle, ?_, ?_⟩
    · intro x hx
      rcases List.mem_cons.mp hx with rfl | hxt
      · exact le_trans hma hle
      · exact hall x hxt
    · rcases hprov with heq | hmem
      · have h2 : fracMax z a = z ∨ fracMax z a = a := by
          unfold fracMax; split
          · exact Or.inr rfl
          · exact Or.inl rfl
        rcases h2 with h1 | h1
        · exact Or.inl (heq.trans h1)
        · exact Or.inr (by rw [heq.trans h1]; exact List.mem_cons_self a t)
      · exact Or.inr (List.mem_cons_of_mem a hmem)

/-- The best matcher score has a positive denominator. -/
theorem bestMatcherScore_den_pos (db : DBState) (vt : List Char) (qk : String) :
    0 < (bestMatcherScore db vt qk).den := by
  unfold bestMatcherScore
  exact (foldl_fracMax_spec _ fracZero Nat.one_pos
    (by intro x hx
        obtain ⟨a, _, rfl⟩ := List.mem_map.mp hx
        exact candidateScore_den_pos vt a)).1

/-- Every candidate score is bounded by the best matcher score. -/
theorem candidateScore_le_best (db : DBState) (vt : List Char) (qk : String) :
    ∀ a ∈ activeAnswers db qk,
      (candidateScore vt a).val ≤ (bestMatcherScore db vt qk).val := by
  intro a ha
  have := (foldl_fracMax_spec ((activeAnswers db qk).map (candidateScore vt))
    fracZero Nat.one_pos
    (by intro x hx
        obtain ⟨b, _, rfl⟩ := List.mem_map.mp hx
        exact candidateScore_den_pos vt b)).2.2.1
  exact this (candidateScore vt a) (List.mem_map_of_mem _ ha)

/-- The value of the similarity threshold constant. -/
theorem fracThreshold_val : fracThreshold.val = 3 / 5 := by
  norm_num [fracThreshold, Frac.val]

/-- The value of the initial best score. -/
theorem fracZero_val : fracZero.val = 0 := by
  norm_num [fracZero, Frac.val]

/-- The matcher fold never changes its accumulator once the running best
score dominates every remaining candidate score. -/
theorem matcherFold_stable (vt : List Char) (th : Frac) :
    ∀ (l : List AnswerRow) (b : Option String) (s : Frac), 0 < s.den →
      (∀ a ∈ l, (candidateScore vt a).val ≤ s.val) →
      l.foldl (matcherStep vt th) (b, s) = (b, s) := by
  intro l b s hs hdom
  refine foldl_induction _ (fun acc => acc = (b, s)) _ _ rfl ?_
  intro acc x hx hacc
  subst hacc
  have hlt : fracLt s (candidateScore vt x) = false := by
    cases h : fracLt s (candidateScore vt x) with
    | false => rfl
    | true =>
      have := (fracLt_iff hs (candidateScore_den_pos vt x)).mp h
      exact absurd (hdom x hx) (not_le.mpr this)
  simp [matcherStep, hlt]

/-- The matcher fold never fires when no candidate reaches the
threshold. -/
theorem matcherFold_below_threshold (vt : List Char) :
    ∀ (l : List AnswerRow) (acc : Option String × Frac),
      (∀ a ∈ l, (candidateScore vt a).val < 3 / 5) →
      l.foldl (matcherStep vt fracThreshold) acc = acc := by
  intro l acc hlow
  refine foldl_induction _ (fun st => st = acc) _ _ rfl ?_
  intro st x hx hst
  subst hst
  have hth : fracLe fracThreshold (candidateScore vt x) = false := by
    cases h : fracLe fracThreshold (candidateScore vt x) with
    | false => rfl
    | true =>
      have := (fracLe_iff (by norm_num [fracThreshold])
        (candidateScore_den_pos vt x)).mp h
      rw [fracThreshold_val] at this
      exact absurd (hlow x hx) (not_lt.mpr this)
  simp [matcherStep, hth]

/-- The matcher fold selects the first candidate achieving the global
maximum `M` once `M` reaches the threshold and the running best is still
strictly below `M`. -/
theorem matcherFold_finds (vt : List Char) (M : Frac) (hMd : 0 < M.den)
    (hMth : (3 : ℚ) / 5 ≤ M.val) :
    ∀ (l : List AnswerRow) (b : Option String) (z : Frac), 0 < z.den →
      z.val < M.val →
      (∀ a ∈ l, (candidateScore vt a).val ≤ M.val) →
      ∀ w, l.find? (fun a => fracLe M (candidateScore vt a)) = some w →
        (l.foldl (matcherStep vt fracThreshold) (b, z)).1 = some w.answer_key := by
  intro l
  induction l with
  | nil => intro b z _ _ _ w hw; simp at hw
  | cons a t ih =>
    intro b z hz hzM hdom w hw
    have had : 0 < (candidateScore vt a).den := candidateScore_den_pos vt a
    rw [List.find?_cons] at hw
    cases hfa : fracLe M (candidateScore vt a) with
    | true =>
      rw [hfa] at hw
      simp only [if_true] at hw
      have hwa : a = w := by injection hw
      subst hwa
      have haM : (candidateScore vt a).val = M.val :=
        le_antisymm (hdom a (by simp)) ((fracLe_iff hMd had).mp hfa)
      have hlt : fracLt z (candidateScore vt a) = true :=
        (fracLt_iff hz had).mpr (haM ▸ hzM)
      have hth : fracLe fracThreshold (candidateScore vt a) = true :=
        (fracLe_iff (by norm_num [fracThreshold]) had).mpr
          (by rw [fracThreshold_val, haM]; exact hMth)
      simp only [List.foldl_cons, matcherStep, hlt, hth, Bool.and_self, if_true]
      rw [matcherFold_stable vt fracThreshold t (some a.answer_key)
        (candidateScore vt a) had
        (fun x hx => haM ▸ hdom x (by simp [hx]))]
    | false =>
      rw [hfa] at hw
      simp only [Bool.false_eq_true, if_false] at hw
      have haM : (candidateScore vt a).val < M.val := by
        have : ¬ M.val ≤ (candidateScore vt a).val :=
          fun hle => by
            rw [(fracLe_iff hMd had).symm] at hle
            rw [hle] at hfa
            cases hfa
        exact lt_of_not_le (fun hge => this hge)
      simp only [List.foldl_cons]
      cases hc : (fracLt z (candidateScore vt a)
          && fracLe fracThreshold (candidateScore vt a)) with
      | true =>
        have hstep : matcherStep vt fracThreshold (b, z) a =
            (some a.answer_key, candidateScore vt a) := by
          simp [matcherStep, Bool.and_eq_true] at hc ⊢
          simp [hc.1, hc.2]
        rw [hstep]
        exact ih (some a.answer_key) (candidateScore vt a) had haM
          (fun x hx => hdom x (by simp [hx])) w hw
      | false =>
        have hstep : matcherStep vt fracThreshold (b, z) a = (b, z) := by
          simp only [matcherStep]
          rw [hc]
          simp
        rw [hstep]
        exact ih b z hz hzM (fun x hx => hdom x (by simp [hx])) w hw

/-- C3: for every utterance and question key, the matcher (threshold
0.6) returns null when the question has no active answers; returns null
when the best candidate score (each candidate scored as the maximum of
the ratio against its canonical text and its lexical variants) is
strictly below 0.6; and otherwise returns the key of the first candidate
achieving the global maximum score. -/
theorem matcher_threshold_spec (db : DBState) (vt : List Char) (qk : String) :
    (activeAnswers db qk = [] → match_voice_to_answer db vt qk = none) ∧
    ((bestMatcherScore db vt qk).val < 3 / 5 →
      match_voice_to_answer db vt qk = none) ∧
    ((3 : ℚ) / 5 ≤ (bestMatcherScore db vt qk).val →
      ∀ w, (activeAnswers db qk).find?
          (fun a => fracLe (bestMatcherScore db vt qk) (candidateScore vt a))
            = some w →
        match_voice_to_answer db vt qk = some w.answer_key) := by
  refine ⟨?_, ?_, ?_⟩
  · intro h
    simp [match_voice_to_answer, h]
  · intro h
    by_cases hcase : activeAnswers db qk = []
    · simp [match_voice_to_answer, hcase]
    · have he : (activeAnswers db qk).isEmpty = false := by
        simpa [List.isEmpty_iff] using hcase
      have hlow : ∀ a ∈ activeAnswers db qk, (candidateScore vt a).val < 3 / 5 :=
        fun a ha => lt_of_le_of_lt (candidateScore_le_best db vt qk a ha) h
      simp only [match_voice_to_answer, he, Bool.false_eq_true, if_false]
      rw [matcherFold_below_threshold vt _ _ hlow]
  · intro hth w hw
    have hne : (activeAnswers db qk).isEmpty = false := by
      have : activeAnswers db qk ≠ [] := by
        intro h
        rw [h] at hw
        simp at hw
      simpa [List.isEmpty_iff] using this
    have h0 : fracZero.val < (bestMatcherScore db vt qk).val := by
      rw [fracZero_val]; linarith
    simp only [match_voice_to_answer, hne, Bool.false_eq_true, if_false]
    exact matcherFold_finds vt (bestMatcherScore db vt qk)
      (bestMatcherScore_den_pos db vt qk) hth (activeAnswers db qk) none
      fracZero Nat.one_pos h0 (candidateScore_le_best db vt qk) w hw

set_option maxRecDepth 100000 in
/-- Witness for C3: on the fixture catalog the utterance `veg` scores
1.0 for the first candidate (via the `veg` lexical variant), so the
matcher returns `veg_key`. -/
theorem matcher_threshold_spec_witness :
    match_voice_to_answer dbFix "veg".toList "dietary_preference"
      = some "veg_key" := by
  have hb : bestMatcherScore dbFix "veg".toList "dietary_preference" = ⟨6, 6⟩ := by
    decide
  have h1 : (3 : ℚ) / 5 ≤ (bestMatcherScore dbFix "veg".toList "dietary_preference").val := by
    rw [hb]; norm_num [Frac.val]
  have h2 : (activeAnswers dbFix "dietary_preference").find?
      (fun a => fracLe (bestMatcherScore dbFix "veg".toList "dietary_preference")
        (candidateScore "veg".toList a)) = some aVeg := by decide
  exact (matcher_threshold_spec dbFix "veg".toList "dietary_preference").2.2 h1 aVeg h2

/-- C10: the matcher result is invariant under changing letter case of
the utterance and under adding leading or trailing whitespace, because
`calculate_similarity` lower-cases and strips both sides before scoring.
The transformed utterance is `pre ++ u ++ post` where `pre` and `post`
are whitespace and `u` agrees with the original utterance up to letter
case. -/
theorem matcher_case_whitespace_invariant (db : DBState) (qk : String)
    (th : Frac) (vt u pre post : List Char)
    (hpre : ∀ c ∈ pre, isPySpace c = true)
    (hpost : ∀ c ∈ post, isPySpace c = true)
    (hcase : lowerL u = lowerL vt) :
    match_voice_to_answer db (pre ++ u ++ post) qk th
      = match_voice_to_answer db vt qk th := by
  have hsim : calculate_similarity (pre ++ u ++ post) = calculate_similarity vt := by
    funext t
    unfold calculate_similarity
    rw [normalizeTxt_invariant vt u pre post hpre hpost hcase]
  have hcand : candidateScore (pre ++ u ++ post) = candidateScore vt := by
    funext a
    unfold candidateScore
    rw [hsim]
  have hstep : matcherStep (pre ++ u ++ post) th = matcherStep vt th := by
    funext best answer
    unfold matcherStep
    rw [hcand]
  unfold match_voice_to_answer
  rw [hstep]

set_option maxRecDepth 100000 in
/-- Witness for C10: upper-casing `veg` and padding it with whitespace
does not change the matcher result on the fixture catalog. -/
theorem matcher_case_whitespace_invariant_witness :
    match_voice_to_answer dbFix ("  ".toList ++ "VEG".toList ++ " \t".toList)
        "dietary_preference"
      = match_voice_to_answer dbFix "veg".toList "dietary_preference" :=
  matcher_case_whitespace_invariant dbFix "dietary_preference" fracThreshold
    "veg".toList "VEG".toList "  ".toList " \t".toList
    (by decide) (by decide) (by decide)

/-- The minimal-order scan started from a seed returns a row that is
bounded by the seed, bounded by every scanned row, and is the seed or a
scanned row. -/
theorem minStep_go :
    ∀ (l : List QuestionRow) (b : QuestionRow),
      ∃ q, l.foldl minStep (some b) = some q ∧
        q.question_order ≤ b.question_order ∧
        (∀ x ∈ l, q.question_order ≤ x.question_order) ∧
        (q = b ∨ q ∈ l) := by
  intro l
  induction l with
  | nil =>
    intro b
    exact ⟨b, rfl, le_refl _,
      fun x hx => absurd hx (List.not_mem_nil x), Or.inl rfl⟩
  | cons a t ih =>
    intro b
    simp only [List.foldl_cons]
    by_cases hab : a.question_order < b.question_order
    · have hstep : minStep (some b) a = some a := by simp [minStep, hab]
      rw [hstep]
      obtain ⟨q, hq, hle, hall, hprov⟩ := ih a
      refine ⟨q, hq, le_trans hle (le_of_lt hab), ?_, ?_⟩
      · intro x hx
        rcases List.mem_cons.mp hx with rfl | hxt
        · exact hle
        · exact hall x hxt
      · rcases hprov with rfl | hm
        · exact Or.inr (by simp)
        · exact Or.inr (by simp [hm])
    · have hstep : minStep (some b) a = some b := by simp [minStep, hab]
      rw [hstep]
      obtain ⟨q, hq, hle, hall, hprov⟩ := ih b
      refine ⟨q, hq, hle, ?_, ?_⟩
      · intro x hx
        rcases List.mem_cons.mp hx with rfl | hxt
        · exact le_trans hle (not_lt.mp hab)
        · exact hall x hxt
      · rcases hprov with rfl | hm
        · exact Or.inl rfl
        · exact Or.inr (by simp [hm])

/-- Specification of the minimal-order scan: it returns `none` exactly
on the empty list, and otherwise a member that minimises the order. -/
theorem minByOrder_spec (l : List QuestionRow) :
    (minByOrder l = none ↔ l = []) ∧
    (∀ q, minByOrder l = some q →
      q ∈ l ∧ ∀ x ∈ l, q.question_order ≤ x.question_order) := by
  cases l with
  | nil =>
    refine ⟨by simp [minByOrder], ?_⟩
    intro q hq
    cases hq
  | cons a t =>
    obtain ⟨q0, hq0, hle, hall, hprov⟩ := minStep_go t a
    have hmb : minByOrder (a :: t) = some q0 := by
      simp only [minByOrder, List.foldl_cons]
      exact hq0
    constructor
    · constructor
      · intro h
        rw [hmb] at h
        cases h
      · intro h
        cases h
    · intro q hq
      rw [hmb] at hq
      injection hq with hq
      subst hq
      constructor
      · rcases hprov with rfl | hm
        · simp
        · simp [hm]
      · intro x hx
        rcases List.mem_cons.mp hx with rfl | hxt
        · exact hle
        · exact hall x hxt

/-- C5: with no current question key, `get_next_question` returns the
active question with the smallest order rank, or null exactly when no
active question exists; with a current question key that resolves to a
row, it returns the active question with the smallest order rank
strictly greater than the current rank, or null exactly when none
remains — hence chained calls yield strictly increasing ranks. -/
theorem progression_spec (db : DBState) :
    ((get_next_question db none = none ↔
        ∀ x ∈ db.questions, x.is_active = false) ∧
      (∀ q, get_next_question db none = some q →
        q.is_active = true ∧ q ∈ db.questions ∧
        ∀ x ∈ db.questions, x.is_active = true →
          q.question_order ≤ x.question_order)) ∧
    (∀ k cur, db.questions.find? (fun q => q.question_key == k) = some cur →
      ((get_next_question db (some k) = none ↔
          ∀ x ∈ db.questions, x.is_active = true →
            x.question_order ≤ cur.question_order) ∧
        (∀ q, get_next_question db (some k) = some q →
          q.is_active = true ∧ q ∈ db.questions ∧
          cur.question_order < q.question_order ∧
          ∀ x ∈ db.questions, x.is_active = true →
            cur.question_order < x.question_order →
            q.question_order ≤ x.question_order))) := by
  constructor
  · have hgn : get_next_question db none
        = minByOrder (db.questions.filter fun q => q.is_active) := rfl
    constructor
    · rw [hgn, (minByOrder_spec _).1, List.filter_eq_nil_iff]
      constructor
      · intro h x hx
        have := h x hx
        simpa using this
      · intro h x hx
        simp [h x hx]
    · intro q hq
      rw [hgn] at hq
      obtain ⟨hmem, hmin⟩ := (minByOrder_spec _).2 q hq
      have hq' := List.mem_filter.mp hmem
      refine ⟨hq'.2, hq'.1, ?_⟩
      intro x hx hxa
      exact hmin x (List.mem_filter.mpr ⟨hx, hxa⟩)
  · intro k cur hfind
    have hgn : get_next_question db (some k)
        = minByOrder (db.questions.filter fun q =>
            decide (q.question_order > cur.question_order) && q.is_active) := by
      simp only [get_next_question]
      rw [hfind]
    constructor
    · rw [hgn, (minByOrder_spec _).1, List.filter_eq_nil_iff]
      constructor
      · intro h x hx hxa
        have := h x hx
        simp only [Bool.and_eq_true, decide_eq_true_eq, not_and] at this
        by_contra hlt
        exact (this (lt_of_not_le hlt)) hxa
      · intro h x hx
        simp only [Bool.and_eq_true, decide_eq_true_eq, not_and]
        intro hgt hxa
        exact absurd (h x hx hxa) (not_le.mpr hgt)
    · intro q hq
      rw [hgn] at hq
      obtain ⟨hmem, hmin⟩ := (minByOrder_spec _).2 q hq
      have hq' := List.mem_filter.mp hmem
      have hgt : cur.question_order < q.question_order := by
        have := hq'.2
        simp only [Bool.and_eq_true, decide_eq_true_eq] at this
        exact this.1
      have hact : q.is_active = true := by
        have := hq'.2
        simp only [Bool.and_eq_true, decide_eq_true_eq] at this
        exact this.2
      refine ⟨hact, hq'.1, hgt, ?_⟩
      intro x hx hxa hxgt
      exact hmin x (List.mem_filter.mpr ⟨hx, by
        simp only [Bool.and_eq_true, decide_eq_true_eq]
        exact ⟨hxgt, hxa⟩⟩)

/-- Witness for C5: on the fixture wizard, chaining from
`dietary_preference` returns `cuisine_type`, whose rank is active and
strictly greater. -/
theorem progression_spec_witness :
    qCuisine.is_active = true ∧
      qDietary.question_order < qCuisine.question_order :=
  have h := ((progression_spec dbFix).2 "dietary_preference" qDietary
    (by decide)).2 qCuisine (by decide)
  ⟨h.1, h.2.2.1⟩

/-- Counterexample for C6: `get_next_question` called with an unknown
question key does not fail — its embedding (like the source function,
which contains no raise) silently returns null, although the key also
fails `validate_question_key`. -/
theorem next_question_unknown_key_silent :
    get_next_question dbFix (some "zzz") = none ∧
      validate_question_key dbFix "zzz" = false := by decide

/-- C6 (amended): the Recorder raises a ValidationError on an
unknown/inactive question key, while the Progression Engine performs no
such validation: an unknown current question key silently yields null. -/
theorem validation_error_spec :
    (∀ (db : DBState) (e : EntryCreate),
      validate_question_key db e.question_key = false →
      create_conversation_entry db e =
        .error ("Invalid question key: " ++ e.question_key)) ∧
    (∀ (db : DBState) (k : String),
      db.questions.find? (fun q => q.question_key == k) = none →
      get_next_question db (some k) = none) := by
  constructor
  · intro db e h
    simp [create_conversation_entry, h]
  · intro db k h
    simp only [get_next_question]
    rw [h]

/-- Witness for C6: the Recorder rejects the unknown question key
`nope` on the fixture database. -/
theorem validation_error_spec_witness :
    create_conversation_entry dbFix
      { session_id := none, user_id := none, question_key := "nope",
        answer_key := none, custom_input := none, responseText := none,
        select_type := "select" } =
      .error ("Invalid question key: " ++ "nope") :=
  validation_error_spec.1 dbFix _ (by decide)

/-- Counterexample for C7: when every item source succeeds but yields
no rows, `get_suggestions_by_dietary_preference` returns the empty
list, not the (non-empty) static fallback list. -/
theorem suggestions_empty_sources_empty_result :
    get_suggestions_by_dietary_preference srcsEmpty "veg" 5 = [] ∧
      get_fallback_suggestions "veg" ≠ [] := by decide

/-- A source contributing nothing produces no suggestion dicts. -/
theorem suggestionsFromSource_of_nothing
    (r : Except Unit (List SuggRow)) (src diet : String) (lim : Nat)
    (h : sourceYieldsNothing r diet) :
    suggestionsFromSource r src diet lim = [] := by
  cases r with
  | error u => rfl
  | ok rows => simp [suggestionsFromSource, h rows rfl]

/-- C7 (amended): when all item sources yield nothing — rows absent or
every query failing (the per-source handlers catch the failure and
return the empty list) — the suggestion lookup returns the empty list;
the static fallback list is only reachable through the outer exception
handler, which the per-source handlers make unreachable. -/
theorem suggestions_all_sources_empty :
    ∀ (srcs : SuggSources) (dp : String) (lim : Nat),
      sourceYieldsNothing srcs.orders (diet_value_of dp) →
      sourceYieldsNothing srcs.cart (diet_value_of dp) →
      sourceYieldsNothing srcs.general (diet_value_of dp) →
      get_suggestions_by_dietary_preference srcs dp lim = [] := by
  intro srcs dp lim h1 h2 h3
  have e1 := suggestionsFromSource_of_nothing srcs.orders "Popular Orders"
    (diet_value_of dp) lim h1
  simp only [get_suggestions_by_dietary_preference,
    get_suggestions_from_orders, get_suggestions_from_cart,
    get_general_suggestions, e1]
  simp [suggestionsFromSource_of_nothing srcs.cart "Cart Items"
      (diet_value_of dp) _ h2,
    suggestionsFromSource_of_nothing srcs.general "General"
      (diet_value_of dp) _ h3]

/-- Witness for C7 (amended): with all three queries raising, the
result is empty. -/
theorem suggestions_all_sources_empty_witness :
    get_suggestions_by_dietary_preference srcsAllFail "veg" 5 = [] :=
  suggestions_all_sources_empty srcsAllFail "veg" 5
    (fun _ h => Except.noConfusion h) (fun _ h => Except.noConfusion h)
    (fun _ h => Except.noConfusion h)

/-- A string starting with a non-empty string is non-empty. -/
theorem String_len_pos_left (a b : String) (h : 0 < a.length) :
    0 < (a ++ b).length := by
  rw [String.length_append]
  omega

/-- Appending item blocks never shortens the response. -/
theorem foldl_suggestionLine_len (l : List (Nat × SuggestionItem)) :
    ∀ acc : String,
      acc.length ≤ (l.foldl (fun r p => r ++ suggestionLine p) acc).length := by
  induction l with
  | nil => intro acc; exact le_refl _
  | cons a t ih =>
    intro acc
    calc acc.length ≤ (acc ++ suggestionLine a).length := by
          rw [String.length_append]; omega
      _ ≤ _ := ih (acc ++ suggestionLine a)

/-- Every language template has a non-empty fallback and intro. -/
theorem languageMessages_pos (dp lang : String) :
    0 < (languageMessages dp lang).fallback.length ∧
      0 < (languageMessages dp lang).intro.length := by
  unfold languageMessages
  split_ifs <;>
    exact ⟨String_len_pos_left _ _ (String_len_pos_left _ _ (by decide)),
      String_len_pos_left _ _ (String_len_pos_left _ _ (by decide))⟩

/-- The language-aware formatter always returns a non-empty string. -/
theorem format_with_language_pos
    (sugg : List SuggestionItem) (dp lang : String) :
    0 < (format_suggestions_response_with_language sugg dp lang).length := by
  unfold format_suggestions_response_with_language
  split
  · exact (languageMessages_pos dp lang).1
  · apply String_len_pos_left
    calc 0 < ((languageMessages dp lang).intro ++ "\n\n").length :=
          String_len_pos_left _ _ (languageMessages_pos dp lang).2
      _ ≤ _ := foldl_suggestionLine_len _ _

/-- C8: for every combination of source outcomes — including all
queries failing — and every requested language, the suggestion pipeline
returns a non-empty string (it has no failing path in the model, matching
the source where every fallible step sits under a handler), and a
language without a template falls back to the English one. -/
theorem suggestion_never_throws :
    ∀ (srcs : SuggSources) (user_text lang : String),
      0 < (get_food_suggestions srcs user_text lang).length ∧
      (∀ (sugg : List SuggestionItem) (dp : String),
        lang ≠ "en" → lang ≠ "es" → lang ≠ "fr" → lang ≠ "hi" →
        format_suggestions_response_with_language sugg dp lang
          = format_suggestions_response_with_language sugg dp "en") := by
  intro srcs ut lang
  constructor
  · unfold get_food_suggestions
    exact format_with_language_pos _ _ _
  · intro sugg dp h1 h2 h3 h4
    have e1 : (lang == "en") = false := beq_eq_false_iff_ne.mpr h1
    have e2 : (lang == "es") = false := beq_eq_false_iff_ne.mpr h2
    have e3 : (lang == "fr") = false := beq_eq_false_iff_ne.mpr h3
    have e4 : (lang == "hi") = false := beq_eq_false_iff_ne.mpr h4
    unfold format_suggestions_response_with_language languageMessages
    rw [e1, e2, e3, e4]
    simp

/-- Witness for C8: with every source failing and the template-less
language `de`, the response is non-empty and equals the English-template
formatting. -/
theorem suggestion_never_throws_witness :
    0 < (get_food_suggestions srcsAllFail "anything" "de").length ∧
      format_suggestions_response_with_language [] "veg" "de"
        = format_suggestions_response_with_language [] "veg" "en" :=
  ⟨(suggestion_never_throws srcsAllFail "anything" "de").1,
    (suggestion_never_throws srcsAllFail "anything" "de").2 [] "veg"
      (by decide) (by decide) (by decide) (by decide)⟩

/-- Counterexample for C4: the raw model output ` veg_key` (leading
space) is not exactly equal to any candidate key nor to either sentinel,
yet the classifier returns `veg_key`, not `SORRY_DONT_UNDERSTAND`,
because the output is stripped before the exact comparisons. -/
theorem classifier_strips_model_output :
    analyze_user_response availFix (some " veg_key".toList) = some "veg_key" ∧
      (" veg_key" : String) ≠ "veg_key" ∧
      (availFix.map (fun a => a.answer_key)).contains " veg_key" = false ∧
      (" veg_key" : String) ≠ "NONE" ∧
      (" veg_key" : String) ≠ "SUGGESTION_REQUEST" := by decide

/-- C4 (amended): after stripping the model output, an exact candidate
key is returned as-is, `NONE` normalizes to `SORRY_DONT_UNDERSTAND`,
`SUGGESTION_REQUEST` is passed through, anything else fails closed to
`SORRY_DONT_UNDERSTAND`, and a transport failure yields null. -/
theorem classifier_fail_closed :
    ∀ (avail : List AvailAnswer) (raw : List Char),
      avail ≠ [] →
      (analyze_user_response avail none = none) ∧
      ((avail.map (fun a => a.answer_key)).contains ((trimWs raw).asString) = true →
        analyze_user_response avail (some raw) = some ((trimWs raw).asString)) ∧
      ((avail.map (fun a => a.answer_key)).contains ((trimWs raw).asString) = false →
        (trimWs raw).asString = "NONE" →
        analyze_user_response avail (some raw) = some "SORRY_DONT_UNDERSTAND") ∧
      ((avail.map (fun a => a.answer_key)).contains ((trimWs raw).asString) = false →
        (trimWs raw).asString = "SUGGESTION_REQUEST" →
        analyze_user_response avail (some raw) = some "SUGGESTION_REQUEST") ∧
      ((avail.map (fun a => a.answer_key)).contains ((trimWs raw).asString) = false →
        (trimWs raw).asString ≠ "NONE" →
        (trimWs raw).asString ≠ "SUGGESTION_REQUEST" →
        analyze_user_response avail (some raw) = some "SORRY_DONT_UNDERSTAND") := by
  intro avail raw hne
  have he : avail.isEmpty = false := by simpa [List.isEmpty_iff] using hne
  refine ⟨?_, ?_, ?_, ?_, ?_⟩
  · simp only [analyze_user_response, he, Bool.false_eq_true, if_false]
  · intro hc
    simp only [analyze_user_response, he, Bool.false_eq_true, if_false, hc,
      if_true]
  · intro hc h
    simp only [analyze_user_response, he, Bool.false_eq_true, if_false, hc]
    rw [h]
    simp
  · intro hc h
    simp only [analyze_user_response, he, Bool.false_eq_true, if_false, hc]
    rw [h]
    simp
  · intro hc h1 h2
    have e1 : ((trimWs raw).asString == "NONE") = false :=
      beq_eq_false_iff_ne.mpr h1
    have e2 : ((trimWs raw).asString == "SUGGESTION_REQUEST") = false :=
      beq_eq_false_iff_ne.mpr h2
    simp only [analyze_user_response, he, Bool.false_eq_true, if_false, hc,
      e1, e2]

/-- Witness for C4 (amended): gibberish output fails closed to
`SORRY_DONT_UNDERSTAND` for the fixture candidates. -/
theorem classifier_fail_closed_witness :
    analyze_user_response availFix (some "gibberish".toList)
      = some "SORRY_DONT_UNDERSTAND" :=
  (classifier_fail_closed availFix "gibberish".toList
    (by decide)).2.2.2.2 (by decide) (by decide) (by decide)

/-- Counterexample for C2: an empty-string answer key is falsy in the
guard `if entry_data.answer_key:`, so it bypasses validation and is
persisted as a non-null empty string although it references no active
answer of the question. -/
theorem recorder_empty_answer_key_not_validated :
    (match create_conversation_entry dbFix
        { session_id := none, user_id := none,
          question_key := "dietary_preference", answer_key := some "",
          custom_input := none, responseText := none,
          select_type := "select" } with
      | .ok (db', _) => db'.entries.map (fun r => r.answer_key)
      | .error _ => []) = [some ""] ∧
      validate_answer_key dbFix "" "dietary_preference" = false := by decide

/-- C2 (amended): every row the Recorder persists has an answer key
that, when non-null and non-empty, references an active answer of the
turn's question; a supplied non-empty answer key failing that check is
downgraded to null while the turn is still recorded. -/
theorem recorder_answer_validity :
    ∀ (db : DBState) (e : EntryCreate) (db' : DBState) (r : ConvResponse)
      (row : EntryRow),
      create_conversation_entry db e = .ok (db', r) →
      db'.entries = db.entries ++ [row] →
      (∀ k, row.answer_key = some k → k ≠ "" →
        validate_answer_key db k e.question_key = true) ∧
      (∀ k, e.answer_key = some k → k ≠ "" →
        validate_answer_key db k e.question_key = false →
        row.answer_key = none) := by
  intro db e db' r row hok hrow
  cases hv : validate_question_key db e.question_key with
  | false =>
    rw [create_conversation_entry, hv] at hok
    cases hok
  | true =>
    rw [create_conversation_entry, hv] at hok
    simp only [Bool.not_true, Bool.false_eq_true, if_false] at hok
    injection hok with hok1
    rw [Prod.mk.injEq] at hok1
    have hdb : db' = { db with
        entries := db.entries ++ [recorder_row db e]
        next_id := db.next_id + 1 } := hok1.1.symm
    rw [hdb] at hrow
    simp only [List.append_cancel_left_eq, List.cons.injEq, and_true] at hrow
    have hre : row = recorder_row db e := hrow.symm
    subst hre
    constructor
    · intro k hk hkne
      rw [recorder_row] at hk
      simp only at hk
      rw [recorder_answer_key] at hk
      cases hak : e.answer_key with
      | none => rw [hak] at hk; simp [truthyOptStr] at hk
      | some k0 =>
        rw [hak] at hk
        by_cases hk0 : k0 = ""
        · subst hk0
          simp only [truthyOptStr, beq_self_eq_true, Bool.not_true,
            Bool.false_eq_true, if_false] at hk
          injection hk with hk
          exact absurd hk.symm hkne
        · have ht : truthyOptStr (some k0) = true := by
            simp [truthyOptStr, hk0]
          rw [ht] at hk
          simp only [if_true] at hk
          cases hval : validate_answer_key db k0 e.question_key with
          | false => rw [hval] at hk; simp at hk
          | true =>
            rw [hval] at hk
            simp only [if_true] at hk
            injection hk with hk
            rw [← hk]
            exact hval
    · intro k hak hkne hval
      rw [recorder_row]
      simp only
      rw [recorder_answer_key, hak]
      have ht : truthyOptStr (some k) = true := by simp [truthyOptStr, hkne]
      rw [ht]
      simp [hval]

/-- Witness for C2 (amended): a stale key under a valid question is
downgraded to null and the turn is still recorded on the fixture
database. -/
theorem recorder_answer_validity_witness :
    validate_answer_key dbFix "stale_key" "dietary_preference" = false ∧
      rowStale.answer_key = none :=
  ⟨by decide,
    (recorder_answer_validity dbFix eStale dbAfterStale respStale rowStale
      (by rfl) (by decide)).2 "stale_key" rfl (by decide) (by decide)⟩

/-- The Recorder succeeds on a valid question key, appending exactly the
recorder row and returning the `from_orm` response. -/
theorem create_ok (db : DBState) (e : EntryCreate)
    (h : validate_question_key db e.question_key = true) :
    create_conversation_entry db e =
      .ok ({ db with
              entries := db.entries ++ [recorder_row db e]
              next_id := db.next_id + 1 },
        recorder_resp db e) := by
  simp [create_conversation_entry, h]

/-- A transport failure makes the classifier return null for any
candidate list. -/
theorem analyze_user_response_none (avail : List AvailAnswer) :
    analyze_user_response avail none = none := by
  unfold analyze_user_response
  split <;> rfl

/-- A constructor failure or a transport failure leaves voice
classification unmatched. -/
theorem voice_matched_key_none (db : DBState) (gif : Bool)
    (graw : Option (List Char)) (qk : String)
    (h : gif = true ∨ graw = none) :
    voice_matched_key db gif graw qk = none := by
  unfold voice_matched_key
  by_cases hg : gif = true
  · simp [hg]
  · have hgf : gif = false := by
      cases gif
      · rfl
      · exact absurd rfl hg
    have hraw : graw = none := by
      rcases h with h | h
      · exact absurd h hg
      · exact h
    subst hraw
    simp [hgf, analyze_user_response_none]

/-- C9: when the classifier invocation fails (raised constructor or
transport failure), the failure is not propagated: select mode keeps
the originally supplied answer key, and voice mode records the turn
with a null answer key and reports it unmatched. -/
theorem transport_failure_recovery :
    ∀ (db : DBState) (srcs : SuggSources) (gif : Bool)
      (graw : Option (List Char)) (sid : Option String) (uid : Option Int)
      (qk : String) (ak : Option String) (rt : Option String)
      (vtext rtext : String),
      gif = true ∨ graw = none →
      (select_resolved_key db gif graw qk ak rt = ak) ∧
      (validate_question_key db qk = true →
        (process_voice_answer db srcs gif graw sid uid qk vtext rtext).toOption.map
            (fun p => (p.1.entries.length,
              p.1.entries.getLast?.map (fun row => row.answer_key),
              p.2.matched))
          = some (db.entries.length + 1, some none, false)) := by
  intro db srcs gif graw sid uid qk ak rt vtext rtext hfail
  constructor
  · unfold select_resolved_key
    cases ht : truthyOptStr rt with
    | false => simp
    | true =>
      by_cases hg : gif = true
      · simp [hg]
      · have hgf : gif = false := by
          cases gif
          · rfl
          · exact absurd rfl hg
        have hraw : graw = none := by
          rcases hfail with h | h
          · exact absurd h hg
          · exact h
        subst hraw
        simp [hgf, analyze_user_response_none]
  · intro hval
    have hm : voice_matched_key db gif graw qk = none :=
      voice_matched_key_none db gif graw qk hfail
    have hc := create_ok db
      (⟨sid, uid, qk, none, some vtext, some rtext, "voice"⟩ : EntryCreate) hval
    simp only [process_voice_answer, hm]
    rw [hc]
    simp [Except.toOption, List.getLast?_concat, recorder_row,
      recorder_answer_key, truthyOptStr]

/-- Witness for C9: with the Gemini constructor failing, select mode
keeps the caller-supplied key on the fixture database. -/
theorem transport_failure_recovery_witness :
    select_resolved_key dbFix true (some "ignored".toList)
      "dietary_preference" (some "veg_key") (some "free text")
      = some "veg_key" :=
  (transport_failure_recovery dbFix srcsEmpty true (some "ignored".toList)
    (some "s1") none "dietary_preference" (some "veg_key") (some "free text")
    "vt" "rt" (Or.inl rfl)).1

/-- Counterexample for C1: a select call whose classification resolves
to `SORRY_DONT_UNDERSTAND` (model output `NONE`) persists no
ConversationEntry at all — the store still has zero entries — and the
caller receives the apology with answer key `SORRY_DONT_UNDERSTAND`,
not a persisted turn with a null answer key. -/
theorem select_ambiguous_persists_nothing :
    (match process_select_answer dbFix srcsEmpty false (some "NONE".toList)
        (some "s1") none "dietary_preference" (some "veg_key") (some "blah") with
      | .ok (db', r) => (db'.entries.length, r.answer_key, r.responseText)
      | .error _ => (99, none, none)) =
      (0, some "SORRY_DONT_UNDERSTAND", some sorryMessage) ∧
      dbFix.entries.length = 0 := by
  constructor
  · rfl
  · rfl

/-- C1 (amended): per coordinator branch — a RESOLVED select turn (valid
question key) persists exactly one ConversationEntry; an AMBIGUOUS
select turn persists nothing and returns the fixed apology response with
answer key `SORRY_DONT_UNDERSTAND` and id 0; a select SUGGESTED turn
persists nothing; an AMBIGUOUS voice turn likewise persists nothing and
returns the apology; every other voice turn (including SUGGESTED)
persists exactly one entry. -/
theorem coordinator_persistence_by_branch :
    ∀ (db : DBState) (srcs : SuggSources) (gif : Bool)
      (graw : Option (List Char)) (sid : Option String) (uid : Option Int)
      (qk : String) (ak : Option String) (rt : Option String)
      (vtext rtext : String),
      (select_resolved_key db gif graw qk ak rt = some "SORRY_DONT_UNDERSTAND" →
        process_select_answer db srcs gif graw sid uid qk ak rt =
          .ok (db, handle_sorry_response
            ⟨sid, uid, qk, some "SORRY_DONT_UNDERSTAND", none, rt, "select"⟩)) ∧
      (select_resolved_key db gif graw qk ak rt = some "SUGGESTION_REQUEST" →
        process_select_answer db srcs gif graw sid uid qk ak rt =
          .ok (db, handle_suggestion_request srcs
            ⟨sid, uid, qk, some "SUGGESTION_REQUEST", none, rt, "select"⟩ rt)) ∧
      (select_resolved_key db gif graw qk ak rt ≠ some "SORRY_DONT_UNDERSTAND" →
        select_resolved_key db gif graw qk ak rt ≠ some "SUGGESTION_REQUEST" →
        validate_question_key db qk = true →
        (process_select_answer db srcs gif graw sid uid qk ak rt).toOption.map
            (fun p => p.1.entries.length) = some (db.entries.length + 1)) ∧
      (voice_matched_key db gif graw qk = some "SORRY_DONT_UNDERSTAND" →
        process_voice_answer db srcs gif graw sid uid qk vtext rtext =
          .ok (db,
            ⟨handle_sorry_response
              ⟨sid, uid, qk, some "SORRY_DONT_UNDERSTAND", some vtext,
                some rtext, "voice"⟩,
              true, some "SORRY_DONT_UNDERSTAND", vtext,
              get_user_language db sid⟩)) ∧
      (voice_matched_key db gif graw qk ≠ some "SORRY_DONT_UNDERSTAND" →
        validate_question_key db qk = true →
        (process_voice_answer db srcs gif graw sid uid qk vtext rtext).toOption.map
            (fun p => p.1.entries.length) = some (db.entries.length + 1)) := by
  intro db srcs gif graw sid uid qk ak rt vtext rtext
  refine ⟨?_, ?_, ?_, ?_, ?_⟩
  · intro h
    simp only [process_select_answer, h]
    rfl
  · intro h
    simp only [process_select_answer, h]
    rfl
  · intro h1 h2 hval
    have e1 : (select_resolved_key db gif graw qk ak rt
        == some "SORRY_DONT_UNDERSTAND") = false := beq_eq_false_iff_ne.mpr h1
    have e2 : (select_resolved_key db gif graw qk ak rt
        == some "SUGGESTION_REQUEST") = false := beq_eq_false_iff_ne.mpr h2
    have hc := create_ok db
      (⟨sid, uid, qk, select_resolved_key db gif graw qk ak rt, none, rt,
        "select"⟩ : EntryCreate) hval
    simp only [process_select_answer, e1, e2, Bool.false_eq_true, if_false]
    rw [hc]
    simp [Except.toOption]
  · intro h
    simp only [process_voice_answer, h]
    rfl
  · intro h1 hval
    have e1 : (voice_matched_key db gif graw qk
        == some "SORRY_DONT_UNDERSTAND") = false := beq_eq_false_iff_ne.mpr h1
    by_cases hsugg : voice_matched_key db gif graw qk = some "SUGGESTION_REQUEST"
    · have es : ((some "SUGGESTION_REQUEST" : Option String)
          == some "SORRY_DONT_UNDERSTAND") = false := by decide
      have hc := create_ok db
        (⟨sid, uid, qk, some "SUGGESTION_REQUEST", some vtext,
          some (get_food_suggestions srcs vtext (get_user_language db sid)),
          "voice"⟩ : EntryCreate) hval
      simp only [process_voice_answer, hsugg, es, Bool.false_eq_true, if_false,
        beq_self_eq_true, if_true]
      rw [hc]
      simp [Except.toOption]
    · have e2 : (voice_matched_key db gif graw qk
          == some "SUGGESTION_REQUEST") = false := beq_eq_false_iff_ne.mpr hsugg
      have hc := create_ok db
        (⟨sid, uid, qk, voice_matched_key db gif graw qk, some vtext,
          some rtext, "voice"⟩ : EntryCreate) hval
      simp only [process_voice_answer, e1, e2, Bool.false_eq_true, if_false]
      rw [hc]
      simp [Except.toOption]

/-- Witness for C1 (amended): on the fixture database a select call
resolved to the sorry sentinel returns the apology without touching the
store. -/
theorem coordinator_persistence_by_branch_witness :
    process_select_answer dbFix srcsEmpty false (some "NONE".toList)
        (some "s1") none "dietary_preference" (some "veg_key") (some "blah") =
      .ok (dbFix, handle_sorry_response
        ⟨some "s1", none, "dietary_preference", some "SORRY_DONT_UNDERSTAND",
          none, some "blah", "select"⟩) :=
  (coordinator_persistence_by_branch dbFix srcsEmpty false
    (some "NONE".toList) (some "s1") none "dietary_preference"
    (some "veg_key") (some "blah") "vt" "rt").1 (by rfl)
